import Mathlib

/-!
Verification of the github-digest program (src/github-digest/main.py).

The program fetches recently active GitHub issues / pull requests /
discussions and commits, filters them by ignore lists and a recency
cutoff, groups them by repository, and renders plain-text and HTML
digests.  The network and SMTP layers are I/O glue; here we embed the
pure core: the filtering stage of `fetch_recent_items`, the pairing and
filtering stage of `fetch_recent_commits`, the cutoff computation of
`main`, the grouping of `main`, and the two renderers `format_plain`
and `format_html`.

Timestamps (`datetime.datetime` values, all timezone-aware UTC in the
program) are embedded as `Int` seconds since the epoch; only their
total order is ever used.  Calendar dates are embedded as `Int` day
numbers, so that the datetime at hour `h` UTC of day `d` is
`d * 86400 + h * 3600` seconds.
-/

namespace GithubDigest

/-- The fixed ignore set of author logins (`IGNORE_AUTHORS` in main.py).
Python uses a `set`; only membership is ever tested, so a list suffices. -/
def IGNORE_AUTHORS : List String :=
  ["jcrist", "dependabot", "renovate", "phillip-ground", "ibis-squawk-bot"]

/-- The fixed ignore set of repository full names (`IGNORE_REPOS` in main.py). -/
def IGNORE_REPOS : List String :=
  ["jcrist/msgspec", "conda-forge/msgspec-feedstock", "NixOS/nixpkgs"]

/-- Embeds `class Repo` of main.py: a repository reference for items. -/
structure Repo where
  name_with_owner : String
deriving DecidableEq, Repr

/-- Embeds `class Actor` of main.py: the author of an item. -/
structure Actor where
  type : String
  login : String
deriving DecidableEq, Repr

/-- Embeds `class Comment` of main.py: a comment-like record carrying one timestamp. -/
structure Comment where
  updated_at : Int
deriving DecidableEq, Repr

/-- Embeds `class Comments` of main.py: a comment (or review) collection. -/
structure Comments where
  items : List Comment := []
  total_count : Nat := 0
deriving DecidableEq, Repr

/-- Embeds `class Item` of main.py: an issue, pull request, or discussion.
`type` ranges over "Issue", "PullRequest", "Discussion" (a `Literal` in
the source); `state` over "CLOSED", "MERGED", "OPEN" or absent. -/
structure Item where
  type : String
  author : Actor
  url : String
  created_at : Int
  last_edited_at : Option Int
  closed_at : Option Int
  repo : Repo
  number : Nat
  title : String
  state : Option String := none
  comments : Comments
  reviews : Comments := {}
deriving DecidableEq, Repr

/-- The predicate of the list comprehension at the end of
`fetch_recent_items` (main.py lines 158-173): keep an item iff its
author's login is not ignored, its author is not a bot, its repository
is not ignored, and some associated timestamp is at least `after`.
Python's `xs and xs[0].updated_at >= after` tests emptiness first and
only then looks at the head, which the `match` mirrors. -/
def includeItem (after : Int) (item : Item) : Bool :=
  !(decide (item.author.login ∈ IGNORE_AUTHORS))
    && item.author.type != "Bot"
    && !(decide (item.repo.name_with_owner ∈ IGNORE_REPOS))
    && (decide (item.created_at ≥ after)
        || (match item.last_edited_at with
            | some t => decide (t ≥ after)
            | none => false)
        || (match item.closed_at with
            | some t => decide (t ≥ after)
            | none => false)
        || (match item.comments.items with
            | c :: _ => decide (c.updated_at ≥ after)
            | [] => false)
        || (match item.reviews.items with
            | c :: _ => decide (c.updated_at ≥ after)
            | [] => false))

/-- The filtering stage of `fetch_recent_items` (main.py lines 158-173),
applied to the concatenated list of decoded items. -/
def fetch_recent_items_filter (after : Int) (items : List Item) : List Item :=
  items.filter (includeItem after)

/-- The cutoff computation of `main` (main.py lines 327-332):
`yesterday = today - timedelta(days=1)` and
`after = datetime.combine(yesterday, time(14, tzinfo=utc))`,
i.e. the previous calendar day at 14:00 UTC, in epoch seconds. -/
def afterCutoff (today : Int) : Int :=
  (today - 1) * 86400 + 14 * 3600

/-- Nested `class Repository` of `class Commit` in main.py. -/
structure CommitRepository where
  full_name : String
deriving DecidableEq, Repr

/-- Nested `class Author` of `class CommitInfo` in main.py: the git
author name of a commit. -/
structure CommitAuthor where
  name : String
deriving DecidableEq, Repr

/-- Nested `class Committer` of `class CommitInfo` in main.py: carries
the committer date. -/
structure CommitCommitter where
  date : Int
deriving DecidableEq, Repr

/-- Embeds `class CommitInfo` of main.py (decoded from the `commit` field). -/
structure CommitInfo where
  author : CommitAuthor
  committer : CommitCommitter
  message : String
deriving DecidableEq, Repr

/-- Python `str.splitlines` restricted to the line boundaries that occur
in commit messages: "\r\n", "\r" and "\n" (Python also recognises some
rarer control and unicode boundaries, none of which matter here). -/
def pySplitlines (s : String) : List String :=
  (go s.data []).map (fun l => String.mk l.reverse)
where
  /-- Walk the characters; `cur` is the current line, reversed. -/
  go : List Char → List Char → List (List Char)
    | [], cur => if cur.isEmpty then [] else [cur]
    | c :: rest, cur =>
      if c = '\r' then
        match rest with
        | '\n' :: rest2 => cur :: go rest2 []
        | [] => cur :: go [] []
        | c2 :: rest2 => cur :: go (c2 :: rest2) []
      else if c = '\n' then cur :: go rest []
      else go rest (c :: cur)
  termination_by l _ => l.length
  decreasing_by all_goals simp_arith

/-- Python's notion of (ASCII) whitespace for `str.strip`. -/
def isPySpace (c : Char) : Bool :=
  c = ' ' || c = '\t' || c = '\n' || c = '\r' || c = Char.ofNat 11 || c = Char.ofNat 12

/-- Python `str.strip()`: remove leading and trailing whitespace. -/
def pyStrip (s : String) : String :=
  String.mk ((s.data.dropWhile isPySpace).reverse.dropWhile isPySpace).reverse

/-- The `title` property of `class CommitInfo` in main.py:
`self.message.splitlines()[0].strip()`.  Python raises `IndexError`
when the message has no lines at all; the model returns "" there, and
is only consulted on commits with a nonempty message. -/
def CommitInfo.title (info : CommitInfo) : String :=
  pyStrip ((pySplitlines info.message).headD "")

/-- Embeds `class Commit` of main.py. -/
structure Commit where
  sha : String
  html_url : String
  node_id : String
  repo : CommitRepository
  info : CommitInfo
deriving DecidableEq, Repr

/-- The pure core of `fetch_recent_commits` (main.py lines 196-223),
taking the decoded commit-search results and the positionally matched
associated-pull-request counts (`node.associated_pull_requests.total_count`
for each decoded node).  Python's `zip` truncates to the shorter list.
The `for`/`if`/`append` loop keeps, in order, the commits whose count is
zero; the final list comprehension then filters by committer date and
the two ignore sets. -/
def fetch_recent_commits (after : Int) (searched : List Commit)
    (counts : List Nat) : List Commit :=
  let commits := (searched.zip counts).filterMap
    (fun p => if p.2 = 0 then some p.1 else none)
  commits.filter
    (fun c =>
      decide (c.info.committer.date ≥ after)
        && !(decide (c.info.author.name ∈ IGNORE_AUTHORS))
        && !(decide (c.repo.full_name ∈ IGNORE_REPOS)))

/-- An element of the grouped values: both renderers branch on
`isinstance(item, Item)`, so the `Item | Commit` union becomes a sum. -/
inductive Entry where
  | item : Item → Entry
  | commit : Commit → Entry
deriving DecidableEq, Repr

/-- The repository key used by `main` when grouping:
`item.repo.name_with_owner` for items, `commit.repo.full_name` for
commits (main.py lines 339-342). -/
def Entry.repoName : Entry → String
  | .item i => i.repo.name_with_owner
  | .commit c => c.repo.full_name

/-- One `groups[key].append(entry)` step on the insertion-ordered
association list modelling the `defaultdict(list)` of `main`: a Python
dict keeps keys in first-insertion order and `append` adds at the end
of the existing list. -/
def addToGroups (gs : List (String × List Entry)) (e : Entry) :
    List (String × List Entry) :=
  match gs with
  | [] => [(e.repoName, [e])]
  | (k, v) :: rest =>
    if k = e.repoName then (k, v ++ [e]) :: rest
    else (k, v) :: addToGroups rest e

/-- The grouping loops of `main` (main.py lines 338-342), run over the
already-concatenated sequence of filtered items followed by filtered
commits. -/
def groupByRepo (es : List Entry) : List (String × List Entry) :=
  es.foldl addToGroups []

/-- The key order used by `sorted(groups.items())` in both renderers:
tuples compare by first component first, and the dict's keys are
distinct, so the comparison is by repository name alone. -/
def groupLE (a b : String × List Entry) : Prop :=
  a.1 ≤ b.1

instance : DecidableRel groupLE :=
  fun a b => inferInstanceAs (Decidable (a.1 ≤ b.1))

/-- Embeds `sorted(groups.items())` of `format_plain` and `format_html`:
a stable sort by repository name (Python's `sorted` is stable; on the
distinct keys of a dict any sort by key gives the same list). -/
def sortGroups (gs : List (String × List Entry)) : List (String × List Entry) :=
  List.insertionSort groupLE gs

/-- The per-entry line of `format_plain` (main.py lines 235-242):
`label = "PR" if item.type == "PullRequest" else item.type`, then
one "- ..." line per entry; `item.sha[:8]` is the first 8 characters. -/
def plainEntryLine : Entry → String
  | .item i =>
    let label := if i.type = "PullRequest" then "PR" else i.type
    "- " ++ label ++ " #" ++ toString i.number ++ ": " ++ i.title
      ++ " <" ++ i.url ++ ">"
  | .commit c =>
    "- Commit " ++ c.sha.take 8 ++ ": " ++ c.info.title
      ++ " <" ++ c.html_url ++ ">"

/-- The lines one repository section contributes in `format_plain`:
the `**repo**` header followed by one line per entry. -/
def plainGroupLines (g : String × List Entry) : List String :=
  ("**" ++ g.1 ++ "**") :: g.2.map plainEntryLine

/-- Embeds `format_plain` of main.py (lines 226-244): the generator yields an
empty line before every section but the first (the `first` flag), which
is interposing `[""]` between the section blocks; the result is joined
with newlines. -/
def format_plain (groups : List (String × List Entry)) : String :=
  String.intercalate "\n"
    (List.intercalate [""] ((sortGroups groups).map plainGroupLines))

/-- Python `html.escape(s)` (quote=True, the default) on one character:
`&` must be escaped before `<` and `>` in the sequential-replace
implementation, which is exactly a character-wise map since no
replacement output contains a character that a later replace touches. -/
def escapeChar (c : Char) : String :=
  if c = '&' then "&amp;"
  else if c = '<' then "&lt;"
  else if c = '>' then "&gt;"
  else if c = '"' then "&quot;"
  else if c = Char.ofNat 39 then "&#x27;"
  else String.singleton c

/-- Python `html.escape` as used on titles in `format_html`: the
concatenation of the per-character expansions. -/
def htmlEscape (s : String) : String :=
  String.mk (s.data.map (fun c => (escapeChar c).data)).flatten

/-- The per-entry line of `format_html` (main.py lines 257-272): a
hyperlink, the escaped title, and for items a parenthetical comment
count suffix when `comments.total_count + reviews.total_count` is
nonzero. -/
def htmlEntryLine : Entry → String
  | .item i =>
    let label := if i.type = "PullRequest" then "PR" else i.type
    let title := htmlEscape i.title
    let count := i.comments.total_count + i.reviews.total_count
    let suffix :=
      if count ≠ 0 then " <i>(" ++ toString count ++ " comments)</i>" else ""
    "<div>- <a href=\"" ++ i.url ++ "\">" ++ label ++ " #"
      ++ toString i.number ++ "</a>: " ++ title ++ suffix ++ "</div>"
  | .commit c =>
    "<div>- <a href=\"" ++ c.html_url ++ "\">Commit " ++ c.sha.take 8
      ++ "</a>: " ++ htmlEscape c.info.title ++ "</div>"

/-- The block one repository section contributes in `format_html`: the
bold header (the repository name is interpolated verbatim, not escaped)
followed by the entry lines. -/
def htmlGroupBlock (g : String × List Entry) : String :=
  "<div><b>" ++ g.1 ++ "</b></div>" ++ String.join (g.2.map htmlEntryLine)

/-- Embeds `format_html` of main.py (lines 247-275): an outer `<div dir="ltr">`
wrapper, `<div><br></div>` between sections (the `first` flag), joined
with no separator. -/
def format_html (groups : List (String × List Entry)) : String :=
  "<div dir=\"ltr\">"
    ++ String.intercalate "<div><br></div>" ((sortGroups groups).map htmlGroupBlock)
    ++ "</div>"

/-- The observable side effects of the tail of `main`. -/
inductive Effect where
  | printOut : String → Effect
  | sendEmail : (subject plain html : String) → Effect
deriving DecidableEq, Repr

/-- The tail of `main` (main.py lines 337-355), after the two fetches:
`if items or commits:` guards everything; inside, items are grouped,
then commits, the two renderers run, the plain digest is printed, and
unless `--no-email` was passed an email is sent.  `todayStr` is the
`str` form of `datetime.date.today()` interpolated into the subject. -/
def mainDigest (todayStr : String) (noEmail : Bool)
    (items : List Item) (commits : List Commit) : List Effect :=
  if !items.isEmpty || !commits.isEmpty then
    let groups := groupByRepo (items.map Entry.item ++ commits.map Entry.commit)
    let plain := format_plain groups
    let htmlBody := format_html groups
    let subject := "GitHub Search Digest: msgspec (" ++ todayStr ++ ")"
    Effect.printOut plain ::
      (if noEmail then [] else [Effect.sendEmail subject plain htmlBody])
  else []

/-! ## Theorems -/

/-- The Boolean filter predicate of `fetch_recent_items`, characterised
propositionally. -/
theorem includeItem_iff (after : Int) (item : Item) :
    includeItem after item = true ↔
      item.author.login ∉ IGNORE_AUTHORS ∧
      item.author.type ≠ "Bot" ∧
      item.repo.name_with_owner ∉ IGNORE_REPOS ∧
      (item.created_at ≥ after ∨
       (∃ t, item.last_edited_at = some t ∧ t ≥ after) ∨
       (∃ t, item.closed_at = some t ∧ t ≥ after) ∨
       (∃ c rest, item.comments.items = c :: rest ∧ c.updated_at ≥ after) ∨
       (∃ c rest, item.reviews.items = c :: rest ∧ c.updated_at ≥ after)) := by
  cases hle : item.last_edited_at <;> cases hcl : item.closed_at <;>
    cases hci : item.comments.items <;> cases hri : item.reviews.items <;>
    simp [includeItem, hle, hcl, hci, hri, and_assoc, or_assoc, ge_iff_le]

/-- C1: an item survives the filtering stage of `fetch_recent_items`
iff it came from the fetched list, its author login is not in the
ignore-author set, its author type is not "Bot", its repository full
name is not in the ignore-repo set, and at least one of `created_at`,
`last_edited_at` (if present), `closed_at` (if present), the first
comment's `updated_at` (if the comment list is nonempty), or the first
review's `updated_at` (if the review list is nonempty) is ≥ the cutoff;
empty comment or review collections make their disjunct false. -/
theorem item_filter_mem_iff (after : Int) (items : List Item) (item : Item) :
    item ∈ fetch_recent_items_filter after items ↔
      item ∈ items ∧
      item.author.login ∉ IGNORE_AUTHORS ∧
      item.author.type ≠ "Bot" ∧
      item.repo.name_with_owner ∉ IGNORE_REPOS ∧
      (item.created_at ≥ after ∨
       (∃ t, item.last_edited_at = some t ∧ t ≥ after) ∨
       (∃ t, item.closed_at = some t ∧ t ≥ after) ∨
       (∃ c rest, item.comments.items = c :: rest ∧ c.updated_at ≥ after) ∨
       (∃ c rest, item.reviews.items = c :: rest ∧ c.updated_at ≥ after)) := by
  rw [fetch_recent_items_filter, List.mem_filter, includeItem_iff]

/-- C2: with today the calendar day `D` (as a day number), the cutoff
is deterministically `D - 1` at 14:00 UTC, and the recency comparison
is inclusive: an item (passing the ignore checks) whose `created_at`
equals the cutoff exactly is kept by the filter predicate, while an
item whose only timestamp is `created_at` one second before the cutoff
is rejected. -/
theorem cutoff_prev_day_14utc_inclusive (today : Int) (item : Item)
    (hauth : item.author.login ∉ IGNORE_AUTHORS)
    (hbot : item.author.type ≠ "Bot")
    (hrepo : item.repo.name_with_owner ∉ IGNORE_REPOS) :
    afterCutoff today = (today - 1) * 86400 + 14 * 3600 ∧
    (item.created_at = afterCutoff today →
      includeItem (afterCutoff today) item = true) ∧
    (item.created_at = afterCutoff today - 1 →
      item.last_edited_at = none → item.closed_at = none →
      item.comments.items = [] → item.reviews.items = [] →
      includeItem (afterCutoff today) item = false) := by
  refine ⟨rfl, fun hc => ?_, fun hc hle hcl hci hri => ?_⟩
  · exact (includeItem_iff _ _).mpr ⟨hauth, hbot, hrepo, Or.inl (le_of_eq hc.symm)⟩
  · have hlt : ¬ (afterCutoff today ≤ afterCutoff today - 1) := by omega
    simp [includeItem, hle, hcl, hci, hri, hc, ge_iff_le, hlt]

/-- A concrete item sitting exactly at the cutoff for day 0. -/
def boundaryItem : Item :=
  { type := "Issue", author := ⟨"User", "alice"⟩, url := "u",
    created_at := -36000, last_edited_at := none, closed_at := none,
    repo := ⟨"a/b"⟩, number := 1, title := "t", comments := {} }

/-- Witness for the cutoff theorem at day 0 and a concrete item. -/
theorem cutoff_prev_day_14utc_inclusive_witness :
    afterCutoff 0 = (0 - 1) * 86400 + 14 * 3600 ∧
    (boundaryItem.created_at = afterCutoff 0 →
      includeItem (afterCutoff 0) boundaryItem = true) ∧
    (boundaryItem.created_at = afterCutoff 0 - 1 →
      boundaryItem.last_edited_at = none → boundaryItem.closed_at = none →
      boundaryItem.comments.items = [] → boundaryItem.reviews.items = [] →
      includeItem (afterCutoff 0) boundaryItem = false) :=
  cutoff_prev_day_14utc_inclusive 0 boundaryItem (by decide) (by decide) (by decide)

/-- A commit with associated-PR count zero and a recent committer date
whose git author name is in the ignore-author set. -/
def ignoredAuthorCommit : Commit :=
  { sha := "deadbeef00", html_url := "https://example/c", node_id := "n1",
    repo := ⟨"some/repo"⟩,
    info := { author := ⟨"jcrist"⟩, committer := ⟨100⟩, message := "Fix" } }

/-- C3 counterexample: a commit paired with count 0 whose committer
date is ≥ the cutoff is nevertheless absent from the output of
`fetch_recent_commits`, because its author name is in the
ignore-author set; so "count exactly 0 and committer date ≥ cutoff
implies included" is false as stated. -/
theorem commit_count_zero_recent_excluded_cex :
    (ignoredAuthorCommit, 0) ∈ [ignoredAuthorCommit].zip [0] ∧
    ignoredAuthorCommit.info.committer.date ≥ 0 ∧
    fetch_recent_commits 0 [ignoredAuthorCommit] [0] = [] := by
  refine ⟨by decide, by decide, by rfl⟩

/-- C3 (amended): every commit in the output of `fetch_recent_commits`
was zipped with an associated-PR count of exactly 0 (so a commit whose
count is positive never appears, regardless of recency); and a commit
zipped with count 0 whose committer date is ≥ the cutoff IS included,
provided it also passes the author and repository ignore checks. -/
theorem commit_selection_amended (after : Int) (searched : List Commit)
    (counts : List Nat) :
    (∀ c ∈ fetch_recent_commits after searched counts,
      (c, 0) ∈ searched.zip counts) ∧
    (∀ c, (c, 0) ∈ searched.zip counts →
      c.info.committer.date ≥ after →
      c.info.author.name ∉ IGNORE_AUTHORS →
      c.repo.full_name ∉ IGNORE_REPOS →
      c ∈ fetch_recent_commits after searched counts) := by
  constructor
  · intro c hc
    rw [fetch_recent_commits, List.mem_filter] at hc
    obtain ⟨hmem, -⟩ := hc
    rw [List.mem_filterMap] at hmem
    obtain ⟨⟨c', n⟩, hzip, hif⟩ := hmem
    by_cases hn : n = 0
    · subst hn
      simp only [if_true, reduceIte, Option.some.injEq] at hif
      exact hif ▸ hzip
    · simp [hn] at hif
  · intro c hzip hdate hauth hrepo
    rw [fetch_recent_commits, List.mem_filter]
    refine ⟨List.mem_filterMap.mpr ⟨(c, 0), hzip, by simp⟩, ?_⟩
    simp [hdate, hauth, hrepo, ge_iff_le]

/-- A commit with count zero passing every check. -/
def okCommit : Commit :=
  { sha := "abcdef1234", html_url := "https://example/ok", node_id := "n2",
    repo := ⟨"some/repo"⟩,
    info := { author := ⟨"dave"⟩, committer := ⟨200⟩, message := "Add" } }

/-- Witness for the amended commit-selection theorem: with one commit
zipped against count 1 and one against count 0, the count-0 commit is
in the output. -/
theorem commit_selection_amended_witness :
    okCommit ∈ fetch_recent_commits 0 [ignoredAuthorCommit, okCommit] [1, 0] :=
  (commit_selection_amended 0 [ignoredAuthorCommit, okCommit] [1, 0]).2 okCommit
    (by decide) (by decide) (by decide) (by decide)

/-- C4: every commit in the output of `fetch_recent_commits` has
committer date ≥ the cutoff (the only timestamp consulted), a git
author name outside the ignore-author set, and a repository full name
outside the ignore-repo set. -/
theorem commit_output_invariants (after : Int) (searched : List Commit)
    (counts : List Nat) (c : Commit)
    (hc : c ∈ fetch_recent_commits after searched counts) :
    c.info.committer.date ≥ after ∧
    c.info.author.name ∉ IGNORE_AUTHORS ∧
    c.repo.full_name ∉ IGNORE_REPOS := by
  rw [fetch_recent_commits, List.mem_filter] at hc
  obtain ⟨-, hpred⟩ := hc
  simpa [ge_iff_le, and_assoc] using hpred

/-- Witness for the commit output invariants at a concrete input. -/
theorem commit_output_invariants_witness :
    okCommit.info.committer.date ≥ 0 ∧
    okCommit.info.author.name ∉ IGNORE_AUTHORS ∧
    okCommit.repo.full_name ∉ IGNORE_REPOS :=
  commit_output_invariants 0 [okCommit] [0] okCommit (by decide)

/-- Zipping only consumes the first `l2.length` elements of `l1`. -/
theorem zip_eq_take_zip {α β : Type} (l1 : List α) (l2 : List β) :
    l1.zip l2 = (l1.take l2.length).zip l2 := by
  induction l1 generalizing l2 with
  | nil => simp
  | cons a l ih =>
    cases l2 with
    | nil => simp
    | cons b l2 => simp [ih l2]

/-- C9: when the decoded PR-association node list is shorter than the
searched commit list, `fetch_recent_commits` pairs them positionally
and silently drops the trailing unmatched commits: the output is the
same as if only the first `counts.length` commits had been searched,
and every output commit comes from that truncated prefix.  (The
function is total, so no error is possible on the mismatch.) -/
theorem commit_zip_truncates (after : Int) (searched : List Commit)
    (counts : List Nat) (h : counts.length < searched.length) :
    fetch_recent_commits after searched counts
      = fetch_recent_commits after (searched.take counts.length) counts ∧
    ∀ c ∈ fetch_recent_commits after searched counts,
      c ∈ searched.take counts.length := by
  constructor
  · rw [fetch_recent_commits, fetch_recent_commits, ← zip_eq_take_zip]
  · intro c hc
    rw [fetch_recent_commits, List.mem_filter] at hc
    obtain ⟨hmem, -⟩ := hc
    rw [List.mem_filterMap] at hmem
    obtain ⟨⟨c', n⟩, hzip, hif⟩ := hmem
    rw [zip_eq_take_zip] at hzip
    have hc' : c' ∈ searched.take counts.length := (List.of_mem_zip hzip).1
    by_cases hn : n = 0
    · subst hn
      simp only [if_true, reduceIte, Option.some.injEq] at hif
      exact hif ▸ hc'
    · simp [hn] at hif

/-- Witness for zip truncation: two searched commits, one count. -/
theorem commit_zip_truncates_witness :
    fetch_recent_commits 0 [okCommit, ignoredAuthorCommit] [0]
      = fetch_recent_commits 0 ([okCommit, ignoredAuthorCommit].take 1) [0] ∧
    ∀ c ∈ fetch_recent_commits 0 [okCommit, ignoredAuthorCommit] [0],
      c ∈ [okCommit, ignoredAuthorCommit].take 1 :=
  commit_zip_truncates 0 [okCommit, ignoredAuthorCommit] [0] (by decide)

instance : IsTotal (String × List Entry) groupLE :=
  ⟨fun a b => le_total a.1 b.1⟩

instance : IsTrans (String × List Entry) groupLE :=
  ⟨fun _ _ _ h1 h2 => le_trans h1 h2⟩

/-- The list a grouped association list stores under key `r` (the dict
indexing `groups[r]`, with `[]` for an absent key; keys built by
`addToGroups` are unique, so first match is the match). -/
def groupsGet (gs : List (String × List Entry)) (r : String) : List Entry :=
  match gs with
  | [] => []
  | (k, v) :: rest => if k = r then v else groupsGet rest r

/-- One `append` step changes exactly the appended-to group, at its
end. -/
theorem groupsGet_addToGroups (gs : List (String × List Entry)) (e : Entry)
    (r : String) :
    groupsGet (addToGroups gs e) r =
      if e.repoName = r then groupsGet gs r ++ [e] else groupsGet gs r := by
  induction gs with
  | nil =>
    by_cases h : e.repoName = r <;> simp [addToGroups, groupsGet, h]
  | cons kv rest ih =>
    obtain ⟨k, v⟩ := kv
    by_cases hk : k = e.repoName
    · by_cases hr : k = r
      · have he : e.repoName = r := hk ▸ hr
        simp [addToGroups, groupsGet, hk, hr, he]
      · have he : ¬ (e.repoName = r) := fun hh => hr (hk.symm ▸ hh)
        simp [addToGroups, groupsGet, hk, hr, he]
    · by_cases hr : k = r
      · have he : ¬ (e.repoName = r) := fun hh => hk (hr.trans hh.symm)
        simp [addToGroups, groupsGet, hk, hr, he, Ne.symm he]
      · simp [addToGroups, groupsGet, hk, hr, ih]

/-- The grouping fold, relative to any starting state: each key's list
grows by the matching entries, in input order. -/
theorem groupsGet_foldl_addToGroups (es : List Entry)
    (gs : List (String × List Entry)) (r : String) :
    groupsGet (es.foldl addToGroups gs) r =
      groupsGet gs r ++ es.filter (fun e => decide (e.repoName = r)) := by
  induction es generalizing gs with
  | nil => simp
  | cons e es ih =>
    rw [List.foldl_cons, ih, groupsGet_addToGroups]
    by_cases h : e.repoName = r
    · simp [List.filter_cons, h, List.append_assoc]
    · simp [List.filter_cons, h]

/-- C5: grouping by repository preserves first-seen append order with
no reordering — the group stored under key `r` is exactly the
subsequence of entries whose repository is `r`, in input order — and
both renderers iterate the groups through `sortGroups`, whose keys are
in lexicographic (≤) order and which is a permutation of the grouped
list. -/
theorem grouping_and_render_order (es : List Entry) (r : String) :
    groupsGet (groupByRepo es) r
        = es.filter (fun e => decide (e.repoName = r)) ∧
    List.Sorted (· ≤ ·) ((sortGroups (groupByRepo es)).map Prod.fst) ∧
    (sortGroups (groupByRepo es)).Perm (groupByRepo es) ∧
    format_plain (groupByRepo es) =
      String.intercalate "\n"
        (List.intercalate [""]
          ((sortGroups (groupByRepo es)).map plainGroupLines)) ∧
    format_html (groupByRepo es) =
      "<div dir=\"ltr\">"
        ++ String.intercalate "<div><br></div>"
          ((sortGroups (groupByRepo es)).map htmlGroupBlock)
        ++ "</div>" := by
  refine ⟨?_, ?_, ?_, rfl, rfl⟩
  · simpa [groupsGet] using groupsGet_foldl_addToGroups es [] r
  · exact List.pairwise_map.mpr (List.sorted_insertionSort groupLE _)
  · exact List.perm_insertionSort groupLE _

/-- A concrete pull request for exercising the renderers. -/
def cexPR : Item :=
  { type := "PullRequest", author := ⟨"User", "bob"⟩, url := "https://x",
    created_at := 0, last_edited_at := none, closed_at := none,
    repo := ⟨"a/b"⟩, number := 2, title := "Add feature",
    comments := {} }

/-- C6 counterexample: the plain renderer's item line begins with a
"- " prefix, so it does not have the claimed shape
"<Label> #<number>: <title> <<url>>": on a concrete single-item group
the output is "**a/b**\n- PR #2: Add feature <https://x>", which
differs from the output the claimed shape would dictate. -/
theorem plain_line_shape_cex :
    format_plain [("a/b", [Entry.item cexPR])]
        = "**a/b**\n- PR #2: Add feature <https://x>" ∧
    "**a/b**\n- PR #2: Add feature <https://x>"
        ≠ "**a/b**\nPR #2: Add feature <https://x>" :=
  ⟨rfl, by decide⟩

/-- C6 (amended): the plain renderer emits a `**repo**` header line per
repository section, exactly one line per entry — of the shape
"- <Label> #<number>: <title> <<url>>" for items (Label is "PR" for
PullRequest and the type name verbatim otherwise) and
"- Commit <short-sha>: <title> <<url>>" for commits (short-sha is the
first 8 characters of the sha) — with a blank line between consecutive
repository sections. -/
theorem plain_format_shape (gs : List (String × List Entry)) :
    format_plain gs =
      String.intercalate "\n"
        (List.intercalate [""]
          ((sortGroups gs).map (fun g =>
            ("**" ++ g.1 ++ "**") ::
              g.2.map (fun e =>
                match e with
                | Entry.item i =>
                  "- " ++ (if i.type = "PullRequest" then "PR" else i.type)
                    ++ " #" ++ toString i.number ++ ": " ++ i.title
                    ++ " <" ++ i.url ++ ">"
                | Entry.commit c =>
                  "- Commit " ++ c.sha.take 8 ++ ": " ++ c.info.title
                    ++ " <" ++ c.html_url ++ ">")))) := rfl

/-- No expansion of a single character by `escapeChar` contains a raw
angle bracket. -/
theorem escapeChar_no_angle (c ch : Char) (h : ch ∈ (escapeChar c).data) :
    ch ≠ '<' ∧ ch ≠ '>' := by
  unfold escapeChar at h
  repeat' split at h
  all_goals simp_all [String.singleton]
  all_goals constructor <;> rintro rfl <;> simp_all +decide

/-- No raw angle bracket survives `htmlEscape`. -/
theorem htmlEscape_no_angle (s : String) (ch : Char)
    (h : ch ∈ (htmlEscape s).data) : ch ≠ '<' ∧ ch ≠ '>' := by
  have h2 : ch ∈ (s.data.map (fun c => (escapeChar c).data)).flatten := h
  rw [List.mem_flatten] at h2
  obtain ⟨l, hl, hch⟩ := h2
  rw [List.mem_map] at hl
  obtain ⟨c, -, rfl⟩ := hl
  exact escapeChar_no_angle c ch hch

/-- C7: the HTML renderer inserts `htmlEscape` of the title (and
nothing else title-derived) into each item and commit line; the escape
maps "<script>" to "&lt;script&gt;", and its output never contains a
raw `<` or `>` character, so no markup originating from a title appears
in the HTML output.  (`&` itself is always expanded to "&amp;".) -/
theorem html_title_escaping :
    (∀ i : Item, htmlEntryLine (Entry.item i) =
      "<div>- <a href=\"" ++ i.url ++ "\">"
        ++ (if i.type = "PullRequest" then "PR" else i.type)
        ++ " #" ++ toString i.number ++ "</a>: " ++ htmlEscape i.title
        ++ (if i.comments.total_count + i.reviews.total_count ≠ 0 then
              " <i>("
                ++ toString (i.comments.total_count + i.reviews.total_count)
                ++ " comments)</i>"
            else "")
        ++ "</div>") ∧
    (∀ c : Commit, htmlEntryLine (Entry.commit c) =
      "<div>- <a href=\"" ++ c.html_url ++ "\">Commit " ++ c.sha.take 8
        ++ "</a>: " ++ htmlEscape c.info.title ++ "</div>") ∧
    htmlEscape "<script>" = "&lt;script&gt;" ∧
    escapeChar '&' = "&amp;" ∧
    (∀ s : String, ∀ ch ∈ (htmlEscape s).data, ch ≠ '<' ∧ ch ≠ '>') :=
  ⟨fun _ => rfl, fun _ => rfl, rfl, rfl, htmlEscape_no_angle⟩

/-- Witness for the escaping theorem: the ampersand of the escaped
"<script>" is itself no angle bracket. -/
theorem html_title_escaping_witness :
    '&' ∈ (htmlEscape "<script>").data ∧ ('&' ≠ '<' ∧ '&' ≠ '>') :=
  ⟨by decide, html_title_escaping.2.2.2.2 "<script>" '&' (by decide)⟩

/-- C8: on an empty day (no items and no commits survive filtering) the
tail of `main` performs no effect at all — nothing is rendered, nothing
is printed, no email send call is made — rather than failing. -/
theorem empty_day_no_render_no_send (todayStr : String) (noEmail : Bool) :
    mainDigest todayStr noEmail [] [] = [] := by
  simp [mainDigest]

/-- C10: the HTML renderer interpolates the repository name into its
bold section header verbatim, with no escaping — for every name and
entry list the header block is literally `<div><b>name</b></div>` — so
a repository name containing `<`, `>` or `&` appears raw in the output,
unlike a title, which `htmlEscape` would have rewritten. -/
theorem repo_header_unescaped :
    (∀ (r : String) (es : List Entry),
      htmlGroupBlock (r, es)
        = "<div><b>" ++ r ++ "</b></div>"
            ++ String.join (es.map htmlEntryLine)) ∧
    format_html [("a<b>&c", [])]
      = "<div dir=\"ltr\"><div><b>a<b>&c</b></div></div>" ∧
    htmlEscape "a<b>&c" = "a&lt;b&gt;&amp;c" :=
  ⟨fun _ _ => rfl, rfl, rfl⟩

end GithubDigest
